import Mathlib

/-!
Verification development for `sttyl.c`, a small table-driven stty clone.

The embedding below translates the C source directly:
* command-line tokens and table names are byte lists (`CStr`), the bytes of a
  NUL-terminated C string with the terminator not stored;
* `struct termios` becomes `Termios`: four 32-bit flag words, the
  control-character array `c_cc` (as a function from index to byte), and the
  output-speed code;
* the byte-offset arithmetic of the C code (`(char *)info + entry->mode`)
  becomes `getWord`/`setWord`, which map each offset occurring in the flag
  table (0, 4, 8, 12 — the glibc x86-64 offsets of `c_iflag`, `c_oflag`,
  `c_cflag`, `c_lflag`) to the corresponding field;
* `fatal`, which prints a diagnostic and calls `exit(1)`, becomes the
  `Except ParseError` error channel: once an error arises nothing further of
  the argument loop runs, matching the fact that `exit` never returns.

Platform constants are the Linux/glibc ones the source compiles against:
ICRNL=0x100, OPOST=0x1, HUPCL=0x400, ISIG=0x1, ICANON=0x2, ECHO=0x8,
ECHOE=0x10, ECHOK=0x20; VINTR=0, VQUIT=1, VERASE=2, VKILL=3, VEOF=4,
VSUSP=10, VEOL=11; `_POSIX_VDISABLE` = 0.
-/

/-- Bytes of a NUL-free C string literal (terminating NUL not stored). -/
def str (s : String) : List Nat := s.data.map Char.toNat

/-- A C string as the list of its bytes (no terminator stored). -/
abbrev CStr := List Nat

/-- All-ones mask of the 32-bit `tcflag_t`; `~m` in C is `mask32 ^^^ m`. -/
def mask32 : Nat := 2 ^ 32 - 1

/-- One row of `struct table_t {tcflag_t flag; char *name; char *type; unsigned long mode;}`. -/
structure TableEntry where
  flag : Nat
  name : CStr
  type : CStr
  mode : Nat
deriving DecidableEq

/-- One row of `struct ctable_t {cc_t c_value; char *c_name;}`. -/
structure CTableEntry where
  c_value : Nat
  c_name : CStr
deriving DecidableEq

/-- The flag table `table[]` from sttyl.c (sentinel row omitted: the Lean
list's end plays the role of the NULL-name sentinel). -/
def table : List TableEntry :=
  [ ⟨256,  str "icrnl",  str "iflag", 0⟩,
    ⟨1,    str "opost",  str "oflag", 4⟩,
    ⟨1024, str "hupcl",  str "cflag", 8⟩,
    ⟨1,    str "isig",   str "lflag", 12⟩,
    ⟨2,    str "icanon", str "lflag", 12⟩,
    ⟨8,    str "echo",   str "lflag", 12⟩,
    ⟨16,   str "echoe",  str "lflag", 12⟩,
    ⟨32,   str "echok",  str "lflag", 12⟩ ]

/-- The control-character table `cchars[]` from sttyl.c. -/
def cchars : List CTableEntry :=
  [ ⟨4,  str "eof"⟩,
    ⟨11, str "eol"⟩,
    ⟨2,  str "erase"⟩,
    ⟨0,  str "intr"⟩,
    ⟨3,  str "kill"⟩,
    ⟨1,  str "quit"⟩,
    ⟨10, str "susp"⟩ ]

/-- `struct termios`: the four flag words, the `c_cc` array (indexed by Nat,
only indices occurring in `cchars` are ever used), and the output speed code
read by `cfgetospeed`. -/
structure Termios where
  c_iflag : Nat
  c_oflag : Nat
  c_cflag : Nat
  c_lflag : Nat
  c_cc : Nat → Nat
  ospeed : Nat

/-- Read the flag word at byte offset `mode`, the Lean form of
`*(tcflag_t *)((char *)info + mode)` for the offsets in `table`. -/
def getWord (info : Termios) (mode : Nat) : Nat :=
  if mode = 0 then info.c_iflag
  else if mode = 4 then info.c_oflag
  else if mode = 8 then info.c_cflag
  else info.c_lflag

/-- Write the flag word at byte offset `mode` (same addressing as `getWord`). -/
def setWord (info : Termios) (mode : Nat) (w : Nat) : Termios :=
  if mode = 0 then { info with c_iflag := w }
  else if mode = 4 then { info with c_oflag := w }
  else if mode = 8 then { info with c_cflag := w }
  else { info with c_lflag := w }

/-- The error kinds reachable from the argument loop; each carries the
offending token, which `fatal` interpolates into its diagnostic.
`illegalOption` is `fatal("illegal argument", ...)`, `missingArgument` is
`fatal("missing argument to", ...)`, `invalidCharArgument` is
`fatal("invalid integer argument", ...)`; all exit with status 1. -/
inductive ParseError where
  | illegalOption (tok : CStr)
  | missingArgument (tok : CStr)
  | invalidCharArgument (tok : CStr)
deriving DecidableEq

/-- `valid_char_opt`: linear scan of `cchars` for an exact strcmp match,
returning the matched row (the C version returns YES/NO plus an out-pointer). -/
def valid_char_opt (arg : CStr) : Option CTableEntry :=
  cchars.find? (fun e => e.c_name == arg)

/-- `lookup`: linear scan of `table` for an exact strcmp match. -/
def lookup (option : CStr) : Option TableEntry :=
  table.find? (fun e => e.name == option)

/-- `isascii(c)`: the byte is 7-bit. (For bytes ≥ 128 the C call sees either
a negative `char` or a value with bit 7 set; both fail `isascii`.) -/
def isascii (c : Nat) : Bool := c < 128

/-- `change_char`: reject when `strlen(value) > 1 || !isascii(value[0])`,
else store `value[0]` into `c_cc[c->c_value]`. For the empty token,
`value[0]` reads the terminating NUL, modelled by `headD 0`. -/
def change_char (c : CTableEntry) (value : CStr) (info : Termios) :
    Except ParseError Termios :=
  if value.length > 1 || !(isascii (value.headD 0)) then
    .error (.invalidCharArgument value)
  else
    .ok { info with c_cc := Function.update info.c_cc c.c_value (value.headD 0) }

/-- The dash-stripping prelude of `get_option` (lines 305–313): returns the
ON/OFF status (`true` = ON) and the possibly-trimmed option. 45 is `'-'`. -/
def stripDash (option : CStr) : Bool × CStr :=
  if option.headD 0 = 45 then (false, option.tail) else (true, option)

/-- The word update of `get_option` (lines 319–324): OR the mask in when
turning ON, AND with the complemented mask when turning OFF. -/
def setFlagWord (info : Termios) (entry : TableEntry) (status : Bool) : Termios :=
  let w := getWord info entry.mode
  setWord info entry.mode (if status then w ||| entry.flag else w &&& (mask32 ^^^ entry.flag))

/-- `get_option`: strip an optional leading dash, look the remainder up in
`table`; unknown names are fatal with the original (unstripped) token. -/
def get_option (option : CStr) (info : Termios) : Except ParseError Termios :=
  let so := stripDash option
  match lookup so.2 with
  | none => .error (.illegalOption option)
  | some entry => .ok (setFlagWord info entry so.1)

/-- The argument loop of `main` (lines 116–130): control-character names are
tried first and consume the following token as their value (fatal if absent);
anything else goes to `get_option` and consumes one token. `fatal`'s
exit-without-return is the error short-circuit. -/
def process : List CStr → Termios → Except ParseError Termios
  | [], info => .ok info
  | tok :: rest, info =>
    match valid_char_opt tok with
    | some c =>
      match rest with
      | [] => .error (.missingArgument tok)
      | v :: rest2 =>
        match change_char c v info with
        | .error e => .error e
        | .ok info2 => process rest2 info2
    | none =>
      match get_option tok info with
      | .error e => .error e
      | .ok info2 => process rest info2

/-- What a whole run does to the outside world: display only, apply new
settings, or die with a diagnostic. The carried Nat is the exit status. -/
inductive Outcome where
  | shown (status : Nat)
  | applied (final : Termios) (status : Nat)
  | fatalErr (e : ParseError) (status : Nat)

/-- `main` after `tcgetattr` succeeded: no arguments shows the settings and
returns 0; otherwise the argument loop either ends in `set_settings` (apply,
status 0) or in `fatal` (no apply, status 1). -/
def mainOutcome (args : List CStr) (dev : Termios) : Outcome :=
  match args with
  | [] => .shown 0
  | _ :: _ =>
    match process args dev with
    | .ok info => .applied info 0
    | .error e => .fatalErr e 1

/-- The device's attributes after the run: only the apply path writes back. -/
def deviceAfter (args : List CStr) (dev : Termios) : Termios :=
  match mainOutcome args dev with
  | .applied final _ => final
  | _ => dev

/-- The process exit status of the run. -/
def exitStatus (args : List CStr) (dev : Termios) : Nat :=
  match mainOutcome args dev with
  | .shown s => s
  | .applied _ s => s
  | .fatalErr _ s => s

/-- `_POSIX_VDISABLE` on Linux. -/
def POSIX_VDISABLE : Nat := 0

/-- `iscntrl` in the "C" locale (the program never calls `setlocale`):
bytes 0–31 and 127. -/
def iscntrl (c : Nat) : Bool := c < 32 || c == 127

/-- The per-character rendering of `show_charset` (lines 192–197):
`<undef>` for the disabled sentinel, caret notation (byte XOR 64, `%c`
truncates to a byte) for control characters, the literal byte otherwise. -/
def charRender (v : Nat) (name : CStr) : List Nat :=
  if v = POSIX_VDISABLE then name ++ str " = <undef>; "
  else if iscntrl v then name ++ str " = ^" ++ [(v ^^^ 64) % 256] ++ str "; "
  else name ++ str " = " ++ [v % 256] ++ str "; "

/-- The loop of `show_charset`: the header is printed on iteration `i = 0`. -/
def charsetLoop (info : Termios) : Nat → List CTableEntry → List Nat
  | _, [] => []
  | i, e :: rest =>
    (if i = 0 then str "cchars: " else [])
      ++ charRender (info.c_cc e.c_value) e.c_name
      ++ charsetLoop info (i + 1) rest

/-- `show_charset`: bytes written to stdout for the control-character block. -/
def show_charset (info : Termios) : List Nat :=
  charsetLoop info 0 cchars

/-- The per-flag token of `show_flagset` (lines 237–240): bare name when
`(word & mask) == mask`, dash-prefixed otherwise; 45 is `'-'`, 32 a space. -/
def flagChunk (info : Termios) (e : TableEntry) : List Nat :=
  if getWord info e.mode &&& e.flag = e.flag then e.name ++ [32]
  else [45] ++ e.name ++ [32]

/-- The loop of `show_flagset`: a `"\n<type>s: "` header whenever the group
tag differs from the previous entry's (or at the start); 10 is `'\n'`. -/
def flagsetLoop (info : Termios) : List TableEntry → Option CStr → List Nat
  | [], _ => []
  | e :: rest, ty =>
    (if ty = some e.type then [] else [10] ++ e.type ++ str "s: ")
      ++ flagChunk info e ++ flagsetLoop info rest (some e.type)

/-- `show_flagset`: bytes written for the flag blocks; a trailing newline is
added when the table is non-empty (`if (i > 0)` after the loop). -/
def show_flagset (info : Termios) : List Nat :=
  flagsetLoop info table none ++ (if table = [] then [] else [10])

/-- `getbaud`: the switch mapping `speed_t` codes (Linux B0..B38400 are
0..15) to numeric baud; the default branch exits, modelled as `none`. -/
def getbaud (speed : Nat) : Option Nat :=
  match speed with
  | 0 => some 0
  | 1 => some 50
  | 2 => some 75
  | 3 => some 110
  | 4 => some 134
  | 5 => some 150
  | 6 => some 200
  | 7 => some 300
  | 8 => some 600
  | 9 => some 1200
  | 10 => some 1800
  | 11 => some 2400
  | 12 => some 4800
  | 13 => some 9600
  | 14 => some 19200
  | 15 => some 38400
  | _ => none

/-- The `struct winsize` fields `show_tty` displays. -/
structure Winsize where
  ws_row : Nat
  ws_col : Nat
deriving DecidableEq

/-- Decimal rendering of a `printf("%d", n)` for a non-negative value. -/
def decimalBytes (n : Nat) : List Nat := str (Nat.repr n)

/-- `show_tty`: the full display — speed/rows/cols line, then the
control-character block, then the flag blocks. `getbaud` failure (which
exits the program before any output) is `none`. -/
def show_tty (info : Termios) (w : Winsize) : Option (List Nat) :=
  match getbaud info.ospeed with
  | none => none
  | some baud =>
    some (str "speed " ++ decimalBytes baud ++ str " baud; "
      ++ str "rows " ++ decimalBytes w.ws_row ++ str "; "
      ++ str "cols " ++ decimalBytes w.ws_col ++ str ";" ++ [10]
      ++ show_charset info ++ show_flagset info)

/-- `pat` occurs contiguously inside `l`. -/
def containsSub (pat l : List Nat) : Prop := ∃ s t, l = s ++ pat ++ t

/-! ## Helper lemmas -/

theorem getWord_setWord (info : Termios) (mode w : Nat) :
    getWord (setWord info mode w) mode = w := by
  unfold getWord setWord
  split_ifs <;> rfl

theorem getWord_setFlagWord (R : Termios) (e : TableEntry) (b : Bool) :
    getWord (setFlagWord R e b) e.mode =
      if b then getWord R e.mode ||| e.flag
      else getWord R e.mode &&& (mask32 ^^^ e.flag) := by
  cases b <;> simp [setFlagWord, getWord_setWord]

theorem containsSub_append_right (pat l x : List Nat) (h : containsSub pat l) :
    containsSub pat (l ++ x) := by
  obtain ⟨s, t, rfl⟩ := h
  exact ⟨s, t ++ x, by simp⟩

theorem containsSub_append_left (pat l x : List Nat) (h : containsSub pat l) :
    containsSub pat (x ++ l) := by
  obtain ⟨s, t, rfl⟩ := h
  exact ⟨x ++ s, t, by simp⟩

/-- Every descriptor of `m`'s bits being set in `w` is the same as the
mask-and-compare test the renderer uses. -/
theorem land_eq_iff_bits (w m : Nat) :
    w &&& m = m ↔ ∀ i, m.testBit i = true → w.testBit i = true := by
  constructor
  · intro h i hi
    have h2 := congrArg (fun x => x.testBit i) h
    simpa [Nat.testBit_land, hi] using h2
  · intro h
    apply Nat.eq_of_testBit_eq
    intro i
    rw [Nat.testBit_land]
    cases hm : m.testBit i
    · simp
    · simp [h i hm]

/-- Setting then clearing a mask restores a 32-bit word in which the mask's
bits were all clear. -/
theorem lor_land_compl_eq (w m : Nat) (hm : m < 2 ^ 32) (hw : w < 2 ^ 32)
    (h0 : w &&& m = 0) : (w ||| m) &&& (mask32 ^^^ m) = w := by
  apply Nat.eq_of_testBit_eq
  intro i
  have hbits : ¬(w.testBit i = true ∧ m.testBit i = true) := by
    rintro ⟨hwi, hmi⟩
    have h2 := congrArg (fun x => x.testBit i) h0
    simp [Nat.testBit_land, hwi, hmi] at h2
  by_cases hi : i < 32
  · simp only [Nat.testBit_land, Nat.testBit_lor, Nat.testBit_xor, mask32,
      Nat.testBit_two_pow_sub_one, hi, decide_True]
    cases hwi : w.testBit i <;> cases hmi : m.testBit i <;>
      simp_all
  · have hle : (2 : Nat) ^ 32 ≤ 2 ^ i := Nat.pow_le_pow_right (by norm_num) (Nat.le_of_not_lt hi)
    have hw' : w.testBit i = false := Nat.testBit_lt_two_pow (lt_of_lt_of_le hw hle)
    have hm' : m.testBit i = false := Nat.testBit_lt_two_pow (lt_of_lt_of_le hm hle)
    simp [Nat.testBit_land, Nat.testBit_lor, Nat.testBit_xor, mask32,
      Nat.testBit_two_pow_sub_one, hi, hw', hm']

/-- A record with everything zeroed and 9600 baud, used as a test fixture. -/
def R0 : Termios := ⟨0, 0, 0, 0, fun _ => 0, 13⟩

/-- A record whose local-flag word has only the ECHO bit set. -/
def R3 : Termios := ⟨0, 0, 0, 8, fun _ => 0, 13⟩

/-- A record whose control characters are all DEL (0x7F). -/
def R7 : Termios := ⟨0, 0, 0, 0, fun _ => 127, 13⟩

/-- The `table[]` row for "echo". -/
def echoEntry : TableEntry := ⟨8, str "echo", str "lflag", 12⟩

/-- A 24x80 window. -/
def W0 : Winsize := ⟨24, 80⟩

/-! ## Claims -/

/-- C1: every token-processing failure (unknown option, missing or invalid
control-character value) exits with status 1 and never reaches the apply
step, so the device keeps its pre-invocation attributes even if earlier
tokens mutated the in-memory record. -/
theorem C1_parse_failure_leaves_device (args : List CStr) (dev : Termios)
    (e : ParseError) (h : process args dev = .error e) :
    exitStatus args dev = 1 ∧ deviceAfter args dev = dev := by
  cases args with
  | nil => simp [process] at h
  | cons a as =>
    refine ⟨?_, ?_⟩
    · simp [exitStatus, mainOutcome, h]
    · simp [deviceAfter, mainOutcome, h]

theorem C1_witness :
    process [str "echo", str "foobar"] R0 = .error (.illegalOption (str "foobar")) ∧
    (exitStatus [str "echo", str "foobar"] R0 = 1 ∧
      deviceAfter [str "echo", str "foobar"] R0 = R0) :=
  ⟨rfl, C1_parse_failure_leaves_device _ _ _ rfl⟩

/-- C9: rendering is deterministic — byte-identical records and ancillary
info (window size; the speed code is part of the record) render to
byte-identical text. -/
theorem C9_render_deterministic (R1 R2 : Termios) (w1 w2 : Winsize)
    (hR : R1 = R2) (hw : w1 = w2) : show_tty R1 w1 = show_tty R2 w2 := by
  rw [hR, hw]

theorem C9_witness : R0 = R0 ∧ W0 = W0 ∧ show_tty R0 W0 = show_tty R0 W0 :=
  ⟨rfl, rfl, C9_render_deterministic R0 R0 W0 W0 rfl rfl⟩

/-- C10: `setFlag` is idempotent — applying the same on/off mutation twice
leaves the flag word as after one application. -/
theorem C10_setFlag_idempotent (e : TableEntry) (b : Bool) (R : Termios) :
    getWord (setFlagWord (setFlagWord R e b) e b) e.mode
      = getWord (setFlagWord R e b) e.mode := by
  rw [getWord_setFlagWord, getWord_setFlagWord]
  cases b <;> simp [Nat.land_assoc, Nat.lor_assoc]

/-- C2 counterexample: the empty value token is not exactly one character
long, yet `change_char` accepts it (strlen 0 is not > 1 and the terminating
NUL passes `isascii`) and stores the NUL byte — the claimed failure does not
occur. -/
theorem C2_counterexample :
    (([] : CStr).length ≠ 1) ∧
    change_char ⟨2, str "erase"⟩ [] R0
      = .ok { R0 with c_cc := Function.update R0.c_cc 2 0 } :=
  ⟨by decide, rfl⟩

/-- C2 amended: `change_char` fails with `InvalidCharArgument` exactly when
the value token is longer than one character or its first byte (the
terminating NUL, i.e. 0, for the empty token) is not 7-bit ASCII; otherwise
it succeeds and writes that first byte into `c_cc[descriptor.index]`. -/
theorem C2_change_char_characterization (c : CTableEntry) (v : CStr) (R : Termios) :
    (change_char c v R = .error (.invalidCharArgument v)
      ↔ (1 < v.length ∨ 128 ≤ v.headD 0)) ∧
    (v.length ≤ 1 → v.headD 0 < 128 →
      change_char c v R
        = .ok { R with c_cc := Function.update R.c_cc c.c_value (v.headD 0) }) := by
  constructor
  · unfold change_char
    split_ifs with hc
    · simp only [isascii, Bool.or_eq_true, decide_eq_true_eq, Bool.not_eq_true',
        decide_eq_false_iff_not, Nat.not_lt] at hc
      simpa using hc
    · simp only [isascii, Bool.or_eq_true, decide_eq_true_eq, Bool.not_eq_true',
        decide_eq_false_iff_not, Nat.not_lt, not_or] at hc
      constructor
      · intro h
        exact absurd h (by simp)
      · intro h
        omega
  · intro h1 h2
    unfold change_char
    rw [if_neg]
    simp only [isascii, Bool.or_eq_true, decide_eq_true_eq, Bool.not_eq_true',
      decide_eq_false_iff_not, Nat.not_lt, not_or]
    omega

theorem C2_witness :
    ([97] : CStr).length ≤ 1 ∧ ([97] : CStr).headD 0 < 128 ∧
    change_char ⟨2, str "erase"⟩ [97] R0
      = .ok { R0 with c_cc := Function.update R0.c_cc 2 97 } :=
  ⟨by decide, by decide,
    (C2_change_char_characterization ⟨2, str "erase"⟩ [97] R0).2 (by decide) (by decide)⟩

/-- C3 counterexample: on a record whose local-flag word already has the
ECHO bit set, turning "echo" on and then off leaves the word at 0, not at
its original value 8 — the round-trip fails when the flag was already on. -/
theorem C3_counterexample :
    lookup (str "echo") = some echoEntry ∧
    getWord R3 echoEntry.mode = 8 ∧
    getWord (setFlagWord (setFlagWord R3 echoEntry true) echoEntry false)
      echoEntry.mode = 0 ∧
    (0 : Nat) ≠ 8 :=
  ⟨rfl, rfl, rfl, by decide⟩

/-- C3 amended: for every FlagDescriptor in the table and every record whose
word at the descriptor's offset is a 32-bit value in which the descriptor's
mask bits are all clear, `setFlag` on followed by `setFlag` off leaves that
word equal to its value before either call. -/
theorem C3_on_off_roundtrip (e : TableEntry) (R : Termios)
    (he : e ∈ table) (hw : getWord R e.mode < 2 ^ 32)
    (h0 : getWord R e.mode &&& e.flag = 0) :
    getWord (setFlagWord (setFlagWord R e true) e false) e.mode
      = getWord R e.mode := by
  have hm : e.flag < 2 ^ 32 := by
    simp only [table, List.mem_cons, List.not_mem_nil, or_false] at he
    rcases he with rfl | rfl | rfl | rfl | rfl | rfl | rfl | rfl <;> norm_num
  have h1 : getWord (setFlagWord R e true) e.mode = getWord R e.mode ||| e.flag := by
    rw [getWord_setFlagWord]
    rfl
  rw [getWord_setFlagWord, h1]
  simpa using lor_land_compl_eq _ _ hm hw h0

theorem C3_witness :
    echoEntry ∈ table ∧ getWord R0 echoEntry.mode < 2 ^ 32 ∧
    getWord R0 echoEntry.mode &&& echoEntry.flag = 0 ∧
    getWord (setFlagWord (setFlagWord R0 echoEntry true) echoEntry false)
      echoEntry.mode = getWord R0 echoEntry.mode :=
  ⟨by decide, by decide, by decide,
    C3_on_off_roundtrip echoEntry R0 (by decide) (by decide) (by decide)⟩

/-- C4: a token recognized by the control-character lookup is resolved as a
control-character directive (that lookup runs before flag lookup): with no
following token the run dies with `MissingArgument` carrying the token;
otherwise both the token and its value token are consumed — the rest of the
run continues after the value token, which is never itself interpreted as an
option. -/
theorem C4_cchar_directive (T : CStr) (R : Termios) (c : CTableEntry)
    (h : valid_char_opt T = some c) :
    process [T] R = .error (.missingArgument T) ∧
    ∀ v rest, process (T :: v :: rest) R
      = (change_char c v R).bind (fun r => process rest r) := by
  constructor
  · simp [process, h]
  · intro v rest
    simp only [process, h]
    cases change_char c v R <;> rfl

theorem C4_witness :
    valid_char_opt (str "erase") = some ⟨2, str "erase"⟩ ∧
    process [str "erase"] R0 = .error (.missingArgument (str "erase")) ∧
    process [str "erase", [97]] R0
      = (change_char ⟨2, str "erase"⟩ [97] R0).bind (fun r => process [] r) :=
  ⟨rfl, (C4_cchar_directive (str "erase") R0 ⟨2, str "erase"⟩ rfl).1,
    (C4_cchar_directive (str "erase") R0 ⟨2, str "erase"⟩ rfl).2 [97] []⟩

/-- C5: a token that is not a control-character name consumes exactly one
token and goes through `get_option`: after stripping at most one leading
dash, an unknown remainder is fatal with `IllegalOption` carrying the
original unstripped token, and a known remainder applies `setFlag` with
intent on (no dash stripped) or off (dash stripped). -/
theorem C5_flag_directive (T : CStr) (R : Termios) (rest : List CStr)
    (h : valid_char_opt T = none) :
    process (T :: rest) R = (get_option T R).bind (fun r => process rest r) ∧
    (lookup (stripDash T).2 = none → get_option T R = .error (.illegalOption T)) ∧
    (∀ e, lookup (stripDash T).2 = some e →
      get_option T R = .ok (setFlagWord R e (stripDash T).1)) := by
  refine ⟨?_, ?_, ?_⟩
  · simp only [process, h]
    cases get_option T R <;> rfl
  · intro hl
    simp [get_option, hl]
  · intro e hl
    simp [get_option, hl]

theorem C5_witness :
    valid_char_opt (str "foobar") = none ∧
    process [str "foobar"] R0
      = (get_option (str "foobar") R0).bind (fun r => process [] r) ∧
    lookup (stripDash (str "foobar")).2 = none ∧
    get_option (str "foobar") R0 = .error (.illegalOption (str "foobar")) :=
  ⟨rfl, (C5_flag_directive (str "foobar") R0 [] rfl).1, rfl,
    (C5_flag_directive (str "foobar") R0 [] rfl).2.1 rfl⟩

/-- Each table row's chunk appears contiguously in the flag-set output. -/
theorem flagsetLoop_containsSub (R : Termios) (e : TableEntry) :
    ∀ (l : List TableEntry) (ty : Option CStr), e ∈ l →
      containsSub (flagChunk R e) (flagsetLoop R l ty)
  | [], _, h => absurd h (List.not_mem_nil e)
  | f :: rest, ty, h => by
    rw [List.mem_cons] at h
    rcases h with rfl | h
    · exact ⟨(if ty = some e.type then [] else [10] ++ e.type ++ str "s: "),
        flagsetLoop R rest (some e.type), by simp [flagsetLoop]⟩
    · exact containsSub_append_left _ _ _
        (flagsetLoop_containsSub R e rest (some f.type) h)

/-- Each control-character row's chunk appears contiguously in the
control-character output. -/
theorem charsetLoop_containsSub (R : Termios) (e : CTableEntry) :
    ∀ (l : List CTableEntry) (i : Nat), e ∈ l →
      containsSub (charRender (R.c_cc e.c_value) e.c_name) (charsetLoop R i l)
  | [], _, h => absurd h (List.not_mem_nil e)
  | f :: rest, i, h => by
    rw [List.mem_cons] at h
    rcases h with rfl | h
    · exact ⟨(if i = 0 then str "cchars: " else []),
        charsetLoop R (i + 1) rest, by simp [charsetLoop]⟩
    · exact containsSub_append_left _ _ _
        (charsetLoop_containsSub R e rest (i + 1) h)

/-- C6: for every name `N` the flag lookup resolves, the renderer's token
for it (bare name when on, dash-prefixed when off) appears in the flag-set
output, and the on/off decision is exactly the mask-and-compare test
`(word & mask) == mask`, which means "all of the mask's bits are set" —
correct also for multi-bit masks. -/
theorem C6_flag_render_mask (N : CStr) (e : TableEntry) (R : Termios)
    (h : lookup N = some e) :
    e.name = N ∧
    containsSub (flagChunk R e) (show_flagset R) ∧
    (flagChunk R e = e.name ++ [32] ↔ getWord R e.mode &&& e.flag = e.flag) ∧
    (getWord R e.mode &&& e.flag = e.flag ↔
      ∀ i, e.flag.testBit i = true → (getWord R e.mode).testBit i = true) := by
  refine ⟨?_, ?_, ?_, land_eq_iff_bits _ _⟩
  · have hp := List.find?_some h
    simpa using hp
  · have hmem : e ∈ table := List.mem_of_find?_eq_some h
    exact containsSub_append_right _ _ _ (flagsetLoop_containsSub R e table none hmem)
  · constructor
    · intro hc
      by_contra hnot
      rw [flagChunk, if_neg hnot] at hc
      have hl := congrArg List.length hc
      simp at hl
    · intro hc
      rw [flagChunk, if_pos hc]

theorem C6_witness :
    lookup (str "echo") = some echoEntry ∧
    echoEntry.name = str "echo" ∧
    containsSub (flagChunk R3 echoEntry) (show_flagset R3) ∧
    (flagChunk R3 echoEntry = echoEntry.name ++ [32] ↔
      getWord R3 echoEntry.mode &&& echoEntry.flag = echoEntry.flag) :=
  ⟨rfl, (C6_flag_render_mask (str "echo") echoEntry R3 rfl).1,
    (C6_flag_render_mask (str "echo") echoEntry R3 rfl).2.1,
    (C6_flag_render_mask (str "echo") echoEntry R3 rfl).2.2.1⟩

/-- C7: every control-character descriptor's `<name> = <rendering>; ` chunk
(`<undef>` for the disabled sentinel, `^X` with X the byte XOR 64 for
control characters, the literal byte otherwise) appears in the
control-character output; in particular a stored erase byte of 0x7F renders
as `erase = ^?; `. -/
theorem C7_charset_render (R : Termios) :
    (∀ e, e ∈ cchars →
      containsSub (charRender (R.c_cc e.c_value) e.c_name) (show_charset R)) ∧
    (R.c_cc 2 = 127 → containsSub (str "erase = ^?; ") (show_charset R)) := by
  constructor
  · intro e he
    exact charsetLoop_containsSub R e cchars 0 he
  · intro h
    have h1 := charsetLoop_containsSub R ⟨2, str "erase"⟩ cchars 0 (by decide)
    have h2 : charRender (R.c_cc 2) (str "erase") = str "erase = ^?; " := by
      rw [h]
      decide
    rw [show_charset, ← h2]
    exact h1

theorem C7_witness :
    ((⟨2, str "erase"⟩ : CTableEntry) ∈ cchars) ∧
    containsSub (charRender (R7.c_cc 2) (str "erase")) (show_charset R7) ∧
    R7.c_cc 2 = 127 ∧
    containsSub (str "erase = ^?; ") (show_charset R7) :=
  ⟨by decide, (C7_charset_render R7).1 ⟨2, str "erase"⟩ (by decide), rfl,
    (C7_charset_render R7).2 rfl⟩

/-- C8: storing a single-ASCII-byte value through `change_char` succeeds,
reading the descriptor's slot afterwards yields that byte, and every other
control-character slot and every flag word is unchanged. -/
theorem C8_set_get_roundtrip_frame (e : CTableEntry) (v : Nat) (R : Termios)
    (hv : v < 128) :
    change_char e [v] R = .ok { R with c_cc := Function.update R.c_cc e.c_value v } ∧
    (∀ R', change_char e [v] R = .ok R' →
      R'.c_cc e.c_value = v ∧
      (∀ j, j ≠ e.c_value → R'.c_cc j = R.c_cc j) ∧
      R'.c_iflag = R.c_iflag ∧ R'.c_oflag = R.c_oflag ∧
      R'.c_cflag = R.c_cflag ∧ R'.c_lflag = R.c_lflag) := by
  have hok : change_char e [v] R
      = .ok { R with c_cc := Function.update R.c_cc e.c_value v } := by
    unfold change_char
    rw [if_neg]
    · rfl
    · simp only [isascii, List.length_cons, List.length_nil, List.headD_cons,
        Bool.or_eq_true, decide_eq_true_eq, Bool.not_eq_true', decide_eq_false_iff_not,
        Nat.not_lt, not_or]
      omega
  refine ⟨hok, ?_⟩
  intro R' h
  rw [hok] at h
  injection h with h
  subst h
  exact ⟨Function.update_same _ _ _,
    fun j hj => Function.update_noteq hj _ _, rfl, rfl, rfl, rfl⟩

theorem C8_witness :
    (97 : Nat) < 128 ∧
    change_char ⟨2, str "erase"⟩ [97] R0
      = .ok { R0 with c_cc := Function.update R0.c_cc 2 97 } ∧
    ({ R0 with c_cc := Function.update R0.c_cc 2 97 } : Termios).c_cc 2 = 97 ∧
    ((5 : Nat) ≠ 2) ∧
    ({ R0 with c_cc := Function.update R0.c_cc 2 97 } : Termios).c_cc 5 = R0.c_cc 5 :=
  ⟨by decide,
    (C8_set_get_roundtrip_frame ⟨2, str "erase"⟩ 97 R0 (by decide)).1,
    ((C8_set_get_roundtrip_frame ⟨2, str "erase"⟩ 97 R0 (by decide)).2 _
      (C8_set_get_roundtrip_frame ⟨2, str "erase"⟩ 97 R0 (by decide)).1).1,
    by decide,
    ((C8_set_get_roundtrip_frame ⟨2, str "erase"⟩ 97 R0 (by decide)).2 _
      (C8_set_get_roundtrip_frame ⟨2, str "erase"⟩ 97 R0 (by decide)).1).2.1 5 (by decide)⟩
